import Mathlib

/-!
Shallow embedding of `drivers/net/skeleton.c`, the NuttX Ethernet driver
skeleton, together with proofs of the specified properties.

The driver state `struct skel_driver_s` is embedded as `SkelDriver`; the two
watchdog timers are modelled by their Idle/Armed status (`Bool`), and the
shared packet buffer by its length field `d_len`.  Every driver operation is
a pure function from the state to a new state together with the list of
observable calls it makes to the hardware adapter, the watchdog subsystem
and the uIP network stack (`Ev`).  The external uIP entry points
(`uip_poll`, `uip_timer`) are modelled from the spec, since their code is
outside this repository.  A ghost field `txOutstanding` records whether a
transmit has been admitted to hardware without a subsequent completion or
reset, and `irqEnabled` records whether the device's interrupt line is
enabled (`up_enable_irq` / `up_disable_irq`).
-/

set_option maxHeartbeats 1000000

namespace Skeleton

/-- The OK return code (0). -/
def OK : Int := 0

/-- Ethertype of IPv4 frames, `UIP_ETHTYPE_IP` (the driver is compiled
without `CONFIG_NET_IPv6`). -/
def UIP_ETHTYPE_IP : Nat := 0x0800

/-- Ethertype of ARP frames, `UIP_ETHTYPE_ARP`. -/
def UIP_ETHTYPE_ARP : Nat := 0x0806

/-- Observable calls made by the driver to the watchdog subsystem, the
hardware adapter and the uIP network stack. -/
inductive Ev where
  | wdStartTxtimeout
  | wdStartTxpoll
  | wdCancelTxtimeout
  | wdCancelTxpoll
  | uipArpIpin
  | uipInput
  | uipArpArpin
  | uipArpOut
  | hwSubmitTx (len : Nat)
  | hwReset
  | uipPollCall
  | uipTimerCall
  | pollConn (len : Nat)
  | irqSave
  | irqRestore
  | upEnableIrq
  | upDisableIrq
deriving DecidableEq

/-- `struct skel_driver_s`: `sk_bifup` is the link-up flag, `sk_txpoll` and
`sk_txtimeout` are the Armed status of the poll and TX-timeout watchdogs,
and `d_len` is the `sk_dev.d_len` buffer-length field.  `irqEnabled` models
whether the device IRQ line is enabled, and `txOutstanding` is a ghost flag:
a transmit has been admitted to hardware and no corresponding completion
(`skel_txdone`) or hardware reset has occurred yet. -/
structure SkelDriver where
  sk_bifup : Bool
  sk_txpoll : Bool
  sk_txtimeout : Bool
  d_len : Nat
  irqEnabled : Bool
  txOutstanding : Bool
deriving DecidableEq

/-- `skel_transmit`: hand the buffer (`d_buf`/`d_len`) to the hardware, then
arm (perhaps restart) the TX-timeout watchdog with `wd_start`, and return
OK.  The ghost `txOutstanding` is set: a transmit is now admitted and
uncompleted. -/
def skel_transmit (s : SkelDriver) : SkelDriver × List Ev × Int :=
  ({ s with sk_txtimeout := true, txOutstanding := true },
   [Ev.hwSubmitTx s.d_len, Ev.wdStartTxtimeout], OK)

/-- `skel_uiptxpoll`: the `uip_poll` callback.  If the poll left outgoing
data in the buffer (`d_len > 0`), resolve with `uip_arp_out` and call
`skel_transmit`; in all cases return 0 so the stack keeps polling the
remaining connections. -/
def skel_uiptxpoll (s : SkelDriver) : SkelDriver × List Ev × Int :=
  if 0 < s.d_len then
    ((skel_transmit s).1, Ev.uipArpOut :: (skel_transmit s).2.1, 0)
  else
    (s, [], 0)

/-- Modelled from the spec: `uip_poll` / `uip_timer` iterate the network
stack's connections, preparing each connection's outgoing data (an element
of `ds` is the `d_len` the stack sets up for one connection, 0 when that
connection has nothing to send) and then invoking the driver callback; the
iteration stops early as soon as the callback returns a non-zero value
(device full), and otherwise continues through every connection.  The uIP
code itself is outside this repository. -/
def uip_poll_go : SkelDriver → List Nat → SkelDriver × List Ev
  | s, [] => (s, [])
  | s, d :: rest =>
    let r := skel_uiptxpoll { s with d_len := d }
    if r.2.2 = 0 then
      ((uip_poll_go r.1 rest).1, (Ev.pollConn d :: r.2.1) ++ (uip_poll_go r.1 rest).2)
    else
      (r.1, [Ev.pollConn d] ++ r.2.1)

/-- Modelled from the spec: `uip_poll dev skel_uiptxpoll` — poll the stack's
connections for outgoing data with the driver callback. -/
def uip_poll (s : SkelDriver) (ds : List Nat) : SkelDriver × List Ev :=
  ((uip_poll_go s ds).1, Ev.uipPollCall :: (uip_poll_go s ds).2)

/-- Modelled from the spec: `uip_timer dev skel_uiptxpoll hsec` — advance
the stack's periodic timing state, using the same poll callback on each
connection. -/
def uip_timer (s : SkelDriver) (ds : List Nat) : SkelDriver × List Ev :=
  ((uip_poll_go s ds).1, Ev.uipTimerCall :: (uip_poll_go s ds).2)

/-- One inbound Ethernet frame as the hardware presents it to the driver:
its ethertype, and the reply length the network stack's input entry point
(`uip_input` / `uip_arp_arpin`) leaves in `d_len` after processing it
(0 when the stack generates no reply). -/
structure Frame where
  ethtype : Nat
  replyLen : Nat
deriving DecidableEq

/-- One iteration of the `skel_receive` loop body: classify the frame by
ethertype.  IP frames go through `uip_arp_ipin` and `uip_input`, and a
stack reply (`d_len > 0`) is sent via `uip_arp_out` then `skel_transmit`.
ARP frames go to `uip_arp_arpin`, and a reply is sent via `skel_transmit`
directly, without `uip_arp_out`.  Other ethertypes are dropped. -/
def skel_receive_frame (s : SkelDriver) (f : Frame) : SkelDriver × List Ev :=
  if f.ethtype = UIP_ETHTYPE_IP then
    let s1 := { s with d_len := f.replyLen }
    if 0 < s1.d_len then
      ((skel_transmit s1).1,
       Ev.uipArpIpin :: Ev.uipInput :: Ev.uipArpOut :: (skel_transmit s1).2.1)
    else
      (s1, [Ev.uipArpIpin, Ev.uipInput])
  else if f.ethtype = UIP_ETHTYPE_ARP then
    let s1 := { s with d_len := f.replyLen }
    if 0 < s1.d_len then
      ((skel_transmit s1).1, Ev.uipArpArpin :: (skel_transmit s1).2.1)
    else
      (s1, [Ev.uipArpArpin])
  else
    (s, [])

/-- `skel_receive`: drain all pending inbound frames.  Modelled from the
spec for the loop condition only: the stub's `do { ... } while ();` has an
empty condition, and the spec mandates repeating exactly while the hardware
adapter reports more pending frames; `frames` is the finite queue of
pending frames the adapter reports, processed one per iteration.  The last
component counts loop iterations. -/
def skel_receive : SkelDriver → List Frame → SkelDriver × List Ev × Nat
  | s, [] => (s, [], 0)
  | s, f :: rest =>
    ((skel_receive (skel_receive_frame s f).1 rest).1,
     (skel_receive_frame s f).2 ++ (skel_receive (skel_receive_frame s f).1 rest).2.1,
     (skel_receive (skel_receive_frame s f).1 rest).2.2 + 1)

/-- `skel_txdone`: a TX completion interrupt — cancel the TX-timeout
watchdog (`wd_cancel`), then poll uIP for new transmit data.  The ghost
`txOutstanding` is cleared: the admitted transmit has completed. -/
def skel_txdone (s : SkelDriver) (ds : List Nat) : SkelDriver × List Ev :=
  ((uip_poll { s with sk_txtimeout := false, txOutstanding := false } ds).1,
   Ev.wdCancelTxtimeout ::
     (uip_poll { s with sk_txtimeout := false, txOutstanding := false } ds).2)

/-- Interrupt-status bits read (and cleared) from the hardware adapter. -/
structure IrqStatus where
  rxReady : Bool
  txDone : Bool
deriving DecidableEq

/-- `skel_interrupt`: hardware interrupt handler.  Modelled from the spec
for the status decode only: the stub reads and clears the adapter's status
bits in comments, and the spec gates `skel_receive` on the RX-ready bit and
`skel_txdone` on the TX-done bit, RX draining first.  `frames` is the
pending RX queue, `ds` the stack's poll data for the TX-done re-poll. -/
def skel_interrupt (s : SkelDriver) (st : IrqStatus) (frames : List Frame)
    (ds : List Nat) : SkelDriver × List Ev × Int :=
  let r1 := if st.rxReady then ((skel_receive s frames).1, (skel_receive s frames).2.1)
            else (s, [])
  let r2 := if st.txDone then skel_txdone r1.1 ds else (r1.1, [])
  (r2.1, r1.2 ++ r2.2, OK)

/-- `skel_txtimeout`: the TX watchdog expired, the last transmit never
completed.  Modelled from the spec for the reset only: "Then reset the
hardware" is a comment stub, and the spec says the handler resets the
adapter to a known-good state (clearing the stalled transmit, hence the
ghost `txOutstanding`), then polls uIP once for new transmit data.  The
handler itself never re-arms the timeout watchdog. -/
def skel_txtimeout (s : SkelDriver) (ds : List Nat) : SkelDriver × List Ev :=
  ((uip_poll { s with txOutstanding := false } ds).1,
   Ev.hwReset :: (uip_poll { s with txOutstanding := false } ds).2)

/-- `skel_polltimer`: periodic poll-timer handler — advance uIP's periodic
timing state with `uip_timer` (which uses the poll callback), then
unconditionally re-arm the poll watchdog with `wd_start`. -/
def skel_polltimer (s : SkelDriver) (ds : List Nat) : SkelDriver × List Ev :=
  ({ (uip_timer s ds).1 with sk_txpoll := true },
   (uip_timer s ds).2 ++ [Ev.wdStartTxpoll])

/-- `skel_ifup`: bring the interface up — arm the poll watchdog, set
`sk_bifup`, enable the device IRQ line, return OK. -/
def skel_ifup (s : SkelDriver) : SkelDriver × List Ev × Int :=
  ({ s with sk_txpoll := true, sk_bifup := true, irqEnabled := true },
   [Ev.wdStartTxpoll, Ev.upEnableIrq], OK)

/-- `skel_ifdown`: stop the interface — with interrupts masked
(`irqsave` / `irqrestore`), disable the device IRQ line, cancel both
watchdogs (`wd_cancel` is a no-op on an Idle watchdog), and clear
`sk_bifup`.  The "Reset the device" step is a comment stub; quiescing the
adapter clears any in-flight transmit, hence the ghost `txOutstanding` is
cleared. -/
def skel_ifdown (s : SkelDriver) : SkelDriver × List Ev × Int :=
  ({ s with irqEnabled := false, sk_txpoll := false, sk_txtimeout := false,
            sk_bifup := false, txOutstanding := false },
   [Ev.irqSave, Ev.upDisableIrq, Ev.wdCancelTxpoll, Ev.wdCancelTxtimeout,
    Ev.irqRestore], OK)

/-- `skel_txavail`: out-of-cycle transmit opportunity.  The whole body runs
between `irqsave` and `irqrestore`; if the interface is up, poll uIP once,
otherwise ignore the notification entirely; return OK either way. -/
def skel_txavail (s : SkelDriver) (ds : List Nat) : SkelDriver × List Ev × Int :=
  if s.sk_bifup then
    ((uip_poll s ds).1, Ev.irqSave :: (uip_poll s ds).2 ++ [Ev.irqRestore], OK)
  else
    (s, [Ev.irqSave, Ev.irqRestore], OK)

/-- The driver state right after `skel_initialize`: the state struct is
zeroed (`memset`), both watchdogs are created Idle, and the IRQ is attached
but not enabled. -/
def initState : SkelDriver :=
  { sk_bifup := false, sk_txpoll := false, sk_txtimeout := false,
    d_len := 0, irqEnabled := false, txOutstanding := false }

/-- Environment events driving the driver: the lifecycle entry points, a
direct transmit admission, a TX completion, the two watchdog expirations
and a hardware interrupt, each carrying the data the external world
supplies (stack poll data, status bits, pending frames). -/
inductive Event where
  | evIfup
  | evIfdown
  | evTransmit
  | evTxdone (ds : List Nat)
  | evTxtimeout (ds : List Nat)
  | evPolltimer (ds : List Nat)
  | evTxavail (ds : List Nat)
  | evInterrupt (st : IrqStatus) (frames : List Frame) (ds : List Nat)

/-- One step of the driver under an environment event, returning the new
state and the trace of observable calls, or `none` when the event cannot
occur: a watchdog only fires while Armed (expiry returns it to Idle before
the handler runs), and the hardware only raises the interrupt while the
device IRQ line is enabled. -/
def step (s : SkelDriver) : Event → Option (SkelDriver × List Ev)
  | Event.evIfup => some ((skel_ifup s).1, (skel_ifup s).2.1)
  | Event.evIfdown => some ((skel_ifdown s).1, (skel_ifdown s).2.1)
  | Event.evTransmit => some ((skel_transmit s).1, (skel_transmit s).2.1)
  | Event.evTxdone ds => some (skel_txdone s ds)
  | Event.evTxtimeout ds =>
    if s.sk_txtimeout then some (skel_txtimeout { s with sk_txtimeout := false } ds)
    else none
  | Event.evPolltimer ds =>
    if s.sk_txpoll then some (skel_polltimer { s with sk_txpoll := false } ds)
    else none
  | Event.evTxavail ds => some ((skel_txavail s ds).1, (skel_txavail s ds).2.1)
  | Event.evInterrupt st frames ds =>
    if s.irqEnabled then
      some ((skel_interrupt s st frames ds).1, (skel_interrupt s st frames ds).2.1)
    else none

/-- Reachable driver states: `initState` and everything a sequence of
events leads to. -/
inductive Reachable : SkelDriver → Prop where
  | init : Reachable initState
  | next (s s2 : SkelDriver) (e : Event) (t : List Ev) :
      Reachable s → step s e = some (s2, t) → Reachable s2

/-- Recognizes a hardware transmit submission event. -/
def isSubmit : Ev → Bool
  | Ev.hwSubmitTx _ => true
  | _ => false

/-- Recognizes a stack connection-offer event inside a poll. -/
def isPollConn : Ev → Bool
  | Ev.pollConn _ => true
  | _ => false

/-- Iterated firings of the poll-timer handler, one per element of `dss`. -/
def pollFirings : SkelDriver → List (List Nat) → SkelDriver
  | s, [] => s
  | s, ds :: rest => pollFirings (skel_polltimer s ds).1 rest

/-- The poll callback returns 0 on every state. -/
lemma skel_uiptxpoll_ret (s : SkelDriver) : (skel_uiptxpoll s).2.2 = 0 := by
  unfold skel_uiptxpoll
  split <;> rfl

/-- Closed form of the poll callback. -/
lemma skel_uiptxpoll_eq (s : SkelDriver) :
    skel_uiptxpoll s =
      if 0 < s.d_len then
        ({ s with sk_txtimeout := true, txOutstanding := true },
         [Ev.uipArpOut, Ev.hwSubmitTx s.d_len, Ev.wdStartTxtimeout], (0 : Int))
      else (s, [], 0) := by
  unfold skel_uiptxpoll skel_transmit
  split <;> rfl

/-- Unfolding the connection iteration one step: since the callback always
returns 0, the early-stop branch is never taken. -/
lemma uip_poll_go_cons (s : SkelDriver) (d : Nat) (rest : List Nat) :
    uip_poll_go s (d :: rest) =
      ((uip_poll_go (skel_uiptxpoll { s with d_len := d }).1 rest).1,
       (Ev.pollConn d :: (skel_uiptxpoll { s with d_len := d }).2.1) ++
         (uip_poll_go (skel_uiptxpoll { s with d_len := d }).1 rest).2) := by
  simp [uip_poll_go, skel_uiptxpoll_ret]

/-- The connection iteration leaves the link-up flag, the IRQ-enable flag
and the poll-timer status untouched, and preserves agreement between the
TX-timeout status and the outstanding-transmit ghost. -/
lemma uip_poll_go_state (ds : List Nat) : ∀ s : SkelDriver,
    (uip_poll_go s ds).1.sk_bifup = s.sk_bifup ∧
    (uip_poll_go s ds).1.irqEnabled = s.irqEnabled ∧
    (uip_poll_go s ds).1.sk_txpoll = s.sk_txpoll ∧
    (s.sk_txtimeout = s.txOutstanding →
       (uip_poll_go s ds).1.sk_txtimeout = (uip_poll_go s ds).1.txOutstanding) := by
  induction ds with
  | nil => exact fun s => ⟨rfl, rfl, rfl, fun h => h⟩
  | cons d rest ih =>
    intro s
    rw [uip_poll_go_cons, skel_uiptxpoll_eq]
    by_cases hd : 0 < ({ s with d_len := d } : SkelDriver).d_len
    · rw [if_pos hd]
      refine ⟨?_, ?_, ?_, fun _ => ?_⟩
      · rw [(ih _).1]
      · rw [(ih _).2.1]
      · rw [(ih _).2.2.1]
      · exact (ih _).2.2.2 rfl
    · rw [if_neg hd]
      refine ⟨?_, ?_, ?_, fun h => ?_⟩
      · rw [(ih _).1]
      · rw [(ih _).2.1]
      · rw [(ih _).2.2.1]
      · exact (ih _).2.2.2 h

/-- Events the connection iteration can and cannot emit: it never emits
stack-input calls, poll entry calls or hardware resets; every arming of the
TX-timeout watchdog in its trace belongs to one transmit submission; and it
offers exactly one connection per element of `ds`. -/
lemma uip_poll_go_trace (ds : List Nat) : ∀ s : SkelDriver,
    Ev.uipInput ∉ (uip_poll_go s ds).2 ∧
    Ev.uipArpIpin ∉ (uip_poll_go s ds).2 ∧
    Ev.uipArpArpin ∉ (uip_poll_go s ds).2 ∧
    (uip_poll_go s ds).2.count Ev.uipPollCall = 0 ∧
    (uip_poll_go s ds).2.count Ev.hwReset = 0 ∧
    (uip_poll_go s ds).2.count Ev.wdStartTxtimeout =
      ((uip_poll_go s ds).2.filter isSubmit).length ∧
    ((uip_poll_go s ds).2.filter isPollConn).length = ds.length := by
  induction ds with
  | nil => intro s; refine ⟨?_, ?_, ?_, rfl, rfl, rfl, rfl⟩ <;> simp [uip_poll_go]
  | cons d rest ih =>
    intro s
    rw [uip_poll_go_cons, skel_uiptxpoll_eq]
    by_cases hd : 0 < ({ s with d_len := d } : SkelDriver).d_len
    · rw [if_pos hd]
      obtain ⟨h1, h2, h3, h4, h5, h6, h7⟩ :=
        ih ({ s with d_len := d, sk_txtimeout := true, txOutstanding := true })
      refine ⟨?_, ?_, ?_, ?_, ?_, ?_, ?_⟩ <;>
        simp [List.count_append, List.count_cons, List.filter_append,
          isSubmit, isPollConn, h1, h2, h3, h4, h5, h6, h7]
    · rw [if_neg hd]
      obtain ⟨h1, h2, h3, h4, h5, h6, h7⟩ := ih ({ s with d_len := d })
      refine ⟨?_, ?_, ?_, ?_, ?_, ?_, ?_⟩ <;>
        simp [List.count_append, List.count_cons, List.filter_append,
          isSubmit, isPollConn, h1, h2, h3, h4, h5, h6, h7]

/-- One receive iteration leaves the link-up flag, the IRQ-enable flag and
the poll-timer status untouched, and preserves agreement between the
TX-timeout status and the outstanding-transmit ghost. -/
lemma skel_receive_frame_state (s : SkelDriver) (f : Frame) :
    (skel_receive_frame s f).1.sk_bifup = s.sk_bifup ∧
    (skel_receive_frame s f).1.irqEnabled = s.irqEnabled ∧
    (skel_receive_frame s f).1.sk_txpoll = s.sk_txpoll ∧
    (s.sk_txtimeout = s.txOutstanding →
       (skel_receive_frame s f).1.sk_txtimeout =
         (skel_receive_frame s f).1.txOutstanding) := by
  simp only [skel_receive_frame, skel_transmit]
  repeat' split
  all_goals refine ⟨rfl, rfl, rfl, fun h => ?_⟩
  all_goals first | rfl | exact h

/-- One receive iteration never emits a poll entry call or a hardware
reset, and every arming of the TX-timeout watchdog in its trace belongs to
one transmit submission. -/
lemma skel_receive_frame_trace (s : SkelDriver) (f : Frame) :
    (skel_receive_frame s f).2.count Ev.uipPollCall = 0 ∧
    (skel_receive_frame s f).2.count Ev.hwReset = 0 ∧
    (skel_receive_frame s f).2.count Ev.wdStartTxtimeout =
      ((skel_receive_frame s f).2.filter isSubmit).length ∧
    Ev.wdCancelTxtimeout ∉ (skel_receive_frame s f).2 := by
  simp only [skel_receive_frame, skel_transmit]
  repeat' split
  all_goals simp [List.count_cons, isSubmit]

/-- The receive drain: same state-preservation facts, frame list wide. -/
lemma skel_receive_state (frames : List Frame) : ∀ s : SkelDriver,
    (skel_receive s frames).1.sk_bifup = s.sk_bifup ∧
    (skel_receive s frames).1.irqEnabled = s.irqEnabled ∧
    (skel_receive s frames).1.sk_txpoll = s.sk_txpoll ∧
    (s.sk_txtimeout = s.txOutstanding →
       (skel_receive s frames).1.sk_txtimeout =
         (skel_receive s frames).1.txOutstanding) := by
  induction frames with
  | nil => exact fun s => ⟨rfl, rfl, rfl, fun h => h⟩
  | cons f rest ih =>
    intro s
    obtain ⟨a1, a2, a3, a4⟩ := skel_receive_frame_state s f
    obtain ⟨b1, b2, b3, b4⟩ := ih (skel_receive_frame s f).1
    simp only [skel_receive]
    exact ⟨by rw [b1, a1], by rw [b2, a2], by rw [b3, a3], fun h => b4 (a4 h)⟩

/-- The receive drain: same trace facts, frame list wide. -/
lemma skel_receive_trace (frames : List Frame) : ∀ s : SkelDriver,
    (skel_receive s frames).2.1.count Ev.uipPollCall = 0 ∧
    (skel_receive s frames).2.1.count Ev.hwReset = 0 ∧
    (skel_receive s frames).2.1.count Ev.wdStartTxtimeout =
      ((skel_receive s frames).2.1.filter isSubmit).length ∧
    Ev.wdCancelTxtimeout ∉ (skel_receive s frames).2.1 := by
  induction frames with
  | nil => intro s; refine ⟨rfl, rfl, rfl, ?_⟩; simp [skel_receive]
  | cons f rest ih =>
    intro s
    obtain ⟨a1, a2, a3, a4⟩ := skel_receive_frame_trace s f
    obtain ⟨b1, b2, b3, b4⟩ := ih (skel_receive_frame s f).1
    simp only [skel_receive]
    refine ⟨?_, ?_, ?_, ?_⟩ <;>
      simp [List.count_append, List.filter_append, a1, a2, a3, a4, b1, b2, b3, b4]

/-- The receive drain runs exactly one iteration per pending frame. -/
lemma skel_receive_iters (frames : List Frame) : ∀ s : SkelDriver,
    (skel_receive s frames).2.2 = frames.length := by
  induction frames with
  | nil => intro s; rfl
  | cons f rest ih =>
    intro s
    simp only [skel_receive, ih, List.length_cons]

/-- TX-done handling restores agreement of the TX-timeout status with the
outstanding-transmit ghost and leaves IRQ-enable and link-up unchanged. -/
lemma skel_txdone_state (s : SkelDriver) (ds : List Nat) :
    ((skel_txdone s ds).1.sk_txtimeout = (skel_txdone s ds).1.txOutstanding) ∧
    (skel_txdone s ds).1.irqEnabled = s.irqEnabled ∧
    (skel_txdone s ds).1.sk_bifup = s.sk_bifup := by
  obtain ⟨a1, a2, a3, a4⟩ :=
    uip_poll_go_state ds ({ s with sk_txtimeout := false, txOutstanding := false })
  simp only [skel_txdone, uip_poll]
  exact ⟨a4 rfl, a2, a1⟩

/-- The TX-timeout handler, entered with the watchdog already Idle,
restores agreement of the TX-timeout status with the ghost and leaves
IRQ-enable and link-up unchanged. -/
lemma skel_txtimeout_state (s : SkelDriver) (ds : List Nat)
    (h : s.sk_txtimeout = false) :
    ((skel_txtimeout s ds).1.sk_txtimeout = (skel_txtimeout s ds).1.txOutstanding) ∧
    (skel_txtimeout s ds).1.irqEnabled = s.irqEnabled ∧
    (skel_txtimeout s ds).1.sk_bifup = s.sk_bifup := by
  obtain ⟨a1, a2, a3, a4⟩ := uip_poll_go_state ds ({ s with txOutstanding := false })
  simp only [skel_txtimeout, uip_poll]
  exact ⟨a4 h, a2, a1⟩

/-- The poll-timer handler leaves its watchdog Armed, preserves agreement
of the TX-timeout status with the ghost, and leaves IRQ-enable and link-up
unchanged. -/
lemma skel_polltimer_state (s : SkelDriver) (ds : List Nat) :
    (skel_polltimer s ds).1.sk_txpoll = true ∧
    (s.sk_txtimeout = s.txOutstanding →
       (skel_polltimer s ds).1.sk_txtimeout = (skel_polltimer s ds).1.txOutstanding) ∧
    (skel_polltimer s ds).1.irqEnabled = s.irqEnabled ∧
    (skel_polltimer s ds).1.sk_bifup = s.sk_bifup := by
  obtain ⟨a1, a2, a3, a4⟩ := uip_poll_go_state ds s
  simp only [skel_polltimer, uip_timer]
  exact ⟨by trivial, fun h => a4 h, a2, a1⟩

/-- `skel_txavail` preserves agreement of the TX-timeout status with the
ghost and leaves IRQ-enable and link-up unchanged. -/
lemma skel_txavail_state (s : SkelDriver) (ds : List Nat)
    (h1 : s.sk_txtimeout = s.txOutstanding) :
    ((skel_txavail s ds).1.sk_txtimeout = (skel_txavail s ds).1.txOutstanding) ∧
    (skel_txavail s ds).1.irqEnabled = s.irqEnabled ∧
    (skel_txavail s ds).1.sk_bifup = s.sk_bifup := by
  simp only [skel_txavail]
  by_cases hb : s.sk_bifup = true
  · obtain ⟨a1, a2, a3, a4⟩ := uip_poll_go_state ds s
    rw [if_pos hb]
    simp only [uip_poll]
    exact ⟨a4 h1, a2, a1⟩
  · rw [if_neg hb]
    exact ⟨h1, rfl, rfl⟩

/-- The interrupt handler preserves agreement of the TX-timeout status with
the ghost and leaves IRQ-enable and link-up unchanged. -/
lemma skel_interrupt_state (s : SkelDriver) (st : IrqStatus) (frames : List Frame)
    (ds : List Nat) (h1 : s.sk_txtimeout = s.txOutstanding) :
    ((skel_interrupt s st frames ds).1.sk_txtimeout =
       (skel_interrupt s st frames ds).1.txOutstanding) ∧
    (skel_interrupt s st frames ds).1.irqEnabled = s.irqEnabled ∧
    (skel_interrupt s st frames ds).1.sk_bifup = s.sk_bifup := by
  simp only [skel_interrupt]
  by_cases hrx : st.rxReady = true <;> by_cases htx : st.txDone = true <;>
    simp only [hrx, htx, if_true, if_false]
  · obtain ⟨r1, r2, r3, r4⟩ := skel_receive_state frames s
    obtain ⟨t1, t2, t3⟩ := skel_txdone_state (skel_receive s frames).1 ds
    exact ⟨t1, by rw [t2, r2], by rw [t3, r1]⟩
  · obtain ⟨r1, r2, r3, r4⟩ := skel_receive_state frames s
    exact ⟨r4 h1, r2, r1⟩
  · obtain ⟨t1, t2, t3⟩ := skel_txdone_state s ds
    exact ⟨t1, t2, t3⟩
  · exact ⟨h1, rfl, rfl⟩

/-- The two inductive invariants of the driver machine: the TX-timeout
watchdog is Armed exactly when a transmit is outstanding, and the device
IRQ line is enabled exactly when the interface is up. -/
lemma reachable_inv (s : SkelDriver) (h : Reachable s) :
    s.sk_txtimeout = s.txOutstanding ∧ s.irqEnabled = s.sk_bifup := by
  induction h with
  | init => exact ⟨rfl, rfl⟩
  | next s s2 e t hr hstep ih =>
    obtain ⟨h1, h2⟩ := ih
    cases e with
    | evIfup =>
      simp only [step, skel_ifup, Option.some.injEq, Prod.mk.injEq] at hstep
      obtain ⟨hs, -⟩ := hstep
      subst hs
      exact ⟨h1, rfl⟩
    | evIfdown =>
      simp only [step, skel_ifdown, Option.some.injEq, Prod.mk.injEq] at hstep
      obtain ⟨hs, -⟩ := hstep
      subst hs
      exact ⟨rfl, rfl⟩
    | evTransmit =>
      simp only [step, skel_transmit, Option.some.injEq, Prod.mk.injEq] at hstep
      obtain ⟨hs, -⟩ := hstep
      subst hs
      exact ⟨rfl, h2⟩
    | evTxdone ds =>
      simp only [step, Option.some.injEq] at hstep
      have hs2 : (skel_txdone s ds).1 = s2 := by rw [hstep]
      subst hs2
      obtain ⟨a1, a2, a3⟩ := skel_txdone_state s ds
      exact ⟨a1, by rw [a2, a3]; exact h2⟩
    | evTxtimeout ds =>
      simp only [step] at hstep
      split at hstep
      · simp only [Option.some.injEq] at hstep
        have hs2 : (skel_txtimeout ({ s with sk_txtimeout := false }) ds).1 = s2 := by
          rw [hstep]
        subst hs2
        obtain ⟨a1, a2, a3⟩ :=
          skel_txtimeout_state ({ s with sk_txtimeout := false }) ds rfl
        exact ⟨a1, by rw [a2, a3]; exact h2⟩
      · exact absurd hstep (by simp)
    | evPolltimer ds =>
      simp only [step] at hstep
      split at hstep
      · simp only [Option.some.injEq] at hstep
        have hs2 : (skel_polltimer ({ s with sk_txpoll := false }) ds).1 = s2 := by
          rw [hstep]
        subst hs2
        obtain ⟨a0, a1, a2, a3⟩ := skel_polltimer_state ({ s with sk_txpoll := false }) ds
        exact ⟨a1 h1, by rw [a2, a3]; exact h2⟩
      · exact absurd hstep (by simp)
    | evTxavail ds =>
      simp only [step, Option.some.injEq, Prod.mk.injEq] at hstep
      obtain ⟨hs, -⟩ := hstep
      subst hs
      obtain ⟨a1, a2, a3⟩ := skel_txavail_state s ds h1
      exact ⟨a1, by rw [a2, a3]; exact h2⟩
    | evInterrupt st frames ds =>
      simp only [step] at hstep
      split at hstep
      · simp only [Option.some.injEq, Prod.mk.injEq] at hstep
        obtain ⟨hs, -⟩ := hstep
        subst hs
        obtain ⟨a1, a2, a3⟩ := skel_interrupt_state s st frames ds h1
        exact ⟨a1, by rw [a2, a3]; exact h2⟩
      · exact absurd hstep (by simp)

/-- C1: the TX-timeout timer is Armed if and only if a transmit has been
admitted to hardware and no corresponding completion or reset has occurred
yet: in every state of the driver reachable under any sequence of
`skel_transmit`, `skel_txdone`, `skel_txtimeout` and `skel_ifdown` calls
(and the remaining entry points), `sk_txtimeout` is Armed exactly when one
transmit is outstanding. -/
theorem txtimeout_armed_iff_outstanding (s : SkelDriver) (h : Reachable s) :
    s.sk_txtimeout = true ↔ s.txOutstanding = true := by
  rw [(reachable_inv s h).1]

/-- C1 witness: the invariant evaluated at the concrete reachable state
right after one `skel_transmit` from the initial state. -/
theorem txtimeout_armed_iff_outstanding_witness :
    ((skel_transmit initState).1.sk_txtimeout = true ↔
       (skel_transmit initState).1.txOutstanding = true) :=
  txtimeout_armed_iff_outstanding (skel_transmit initState).1
    (Reachable.next initState (skel_transmit initState).1 Event.evTransmit
      (skel_transmit initState).2.1 Reachable.init rfl)

/-- C2: while the interface is down (`sk_bifup` false), no step of the
driver hands a frame to the network stack's input entry points
(`uip_input` / `uip_arp_arpin`): the interrupt that would drain RX cannot
be raised, because the IRQ line is enabled exactly when the link is up. -/
theorem rx_gated_by_link_up (s s2 : SkelDriver) (e : Event) (t : List Ev)
    (hr : Reachable s) (hdown : s.sk_bifup = false)
    (hstep : step s e = some (s2, t)) :
    Ev.uipInput ∉ t ∧ Ev.uipArpArpin ∉ t := by
  cases e with
  | evIfup =>
    simp only [step, skel_ifup, Option.some.injEq, Prod.mk.injEq] at hstep
    obtain ⟨-, ht⟩ := hstep
    subst ht
    exact ⟨by simp, by simp⟩
  | evIfdown =>
    simp only [step, skel_ifdown, Option.some.injEq, Prod.mk.injEq] at hstep
    obtain ⟨-, ht⟩ := hstep
    subst ht
    exact ⟨by simp, by simp⟩
  | evTransmit =>
    simp only [step, skel_transmit, Option.some.injEq, Prod.mk.injEq] at hstep
    obtain ⟨-, ht⟩ := hstep
    subst ht
    exact ⟨by simp, by simp⟩
  | evTxdone ds =>
    simp only [step, Option.some.injEq] at hstep
    have ht : (skel_txdone s ds).2 = t := by rw [hstep]
    subst ht
    obtain ⟨g1, g2, g3, -⟩ :=
      uip_poll_go_trace ds ({ s with sk_txtimeout := false, txOutstanding := false })
    simp only [skel_txdone, uip_poll]
    exact ⟨by simp [g1], by simp [g3]⟩
  | evTxtimeout ds =>
    simp only [step] at hstep
    split at hstep
    · simp only [Option.some.injEq] at hstep
      have ht : (skel_txtimeout ({ s with sk_txtimeout := false }) ds).2 = t := by
        rw [hstep]
      subst ht
      obtain ⟨g1, g2, g3, -⟩ :=
        uip_poll_go_trace ds ({ s with sk_txtimeout := false, txOutstanding := false })
      simp only [skel_txtimeout, uip_poll]
      exact ⟨by simp [g1], by simp [g3]⟩
    · exact absurd hstep (by simp)
  | evPolltimer ds =>
    simp only [step] at hstep
    split at hstep
    · simp only [Option.some.injEq] at hstep
      have ht : (skel_polltimer ({ s with sk_txpoll := false }) ds).2 = t := by
        rw [hstep]
      subst ht
      obtain ⟨g1, g2, g3, -⟩ :=
        uip_poll_go_trace ds ({ s with sk_txpoll := false })
      simp only [skel_polltimer, uip_timer]
      exact ⟨by simp [g1], by simp [g3]⟩
    · exact absurd hstep (by simp)
  | evTxavail ds =>
    have hb : ¬(s.sk_bifup = true) := by rw [hdown]; exact Bool.false_ne_true
    simp only [step, skel_txavail] at hstep
    rw [if_neg hb] at hstep
    simp only [Option.some.injEq, Prod.mk.injEq] at hstep
    obtain ⟨-, ht⟩ := hstep
    subst ht
    exact ⟨by simp, by simp⟩
  | evInterrupt st frames ds =>
    have hirq : s.irqEnabled = false := by
      rw [(reachable_inv s hr).2, hdown]
    simp only [step, hirq] at hstep
    exact absurd hstep (by simp)

/-- C2 witness: a txavail step taken from the initial (link-down) state
hands nothing to the stack input entry points. -/
theorem rx_gated_by_link_up_witness :
    Ev.uipInput ∉ ([Ev.irqSave, Ev.irqRestore] : List Ev) :=
  (rx_gated_by_link_up initState initState (Event.evTxavail [3])
      [Ev.irqSave, Ev.irqRestore] Reachable.init rfl (by decide)).1

/-- C3: each interrupt invocation drains RX only when the RX-ready status
bit is set, performs TX-done handling (cancel the timeout watchdog, then
one poll) only when the TX-done bit is set, and the trace is the RX part
followed by the TX-done part, so RX draining completes first. -/
theorem interrupt_status_gating (s : SkelDriver) (st : IrqStatus)
    (frames : List Frame) (ds : List Nat) :
    ((skel_interrupt s st frames ds).2.1 =
       (if st.rxReady then (skel_receive s frames).2.1 else []) ++
       (if st.txDone then
          (skel_txdone (if st.rxReady then (skel_receive s frames).1 else s) ds).2
        else [])) ∧
    (st.rxReady = false →
       Ev.uipArpIpin ∉ (skel_interrupt s st frames ds).2.1 ∧
       Ev.uipInput ∉ (skel_interrupt s st frames ds).2.1 ∧
       Ev.uipArpArpin ∉ (skel_interrupt s st frames ds).2.1) ∧
    (st.txDone = false →
       Ev.wdCancelTxtimeout ∉ (skel_interrupt s st frames ds).2.1 ∧
       (skel_interrupt s st frames ds).2.1.count Ev.uipPollCall = 0) ∧
    (st.txDone = true →
       (skel_interrupt s st frames ds).2.1.count Ev.uipPollCall = 1) := by
  rcases Bool.eq_false_or_eq_true st.rxReady with hrx | hrx <;>
    rcases Bool.eq_false_or_eq_true st.txDone with htx | htx
  · obtain ⟨r1, r2, r3, r4⟩ := skel_receive_trace frames s
    obtain ⟨g1, g2, g3, g4, -⟩ :=
      uip_poll_go_trace ds
        ({ (skel_receive s frames).1 with sk_txtimeout := false, txOutstanding := false })
    refine ⟨by simp [skel_interrupt, hrx, htx],
      fun hc => Bool.noConfusion (hrx.symm.trans hc),
      fun hc => Bool.noConfusion (htx.symm.trans hc), fun _ => ?_⟩
    simp only [skel_interrupt, hrx, htx, skel_txdone, uip_poll]
    simp [List.count_append, List.count_cons, r1, g4]
  · obtain ⟨r1, r2, r3, r4⟩ := skel_receive_trace frames s
    refine ⟨by simp [skel_interrupt, hrx, htx],
      fun hc => Bool.noConfusion (hrx.symm.trans hc), fun _ => ?_,
      fun hc => Bool.noConfusion (htx.symm.trans hc)⟩
    simp only [skel_interrupt, hrx, htx]
    refine ⟨?_, ?_⟩ <;> simp [r1, r4]
  · obtain ⟨g1, g2, g3, g4, -⟩ :=
      uip_poll_go_trace ds ({ s with sk_txtimeout := false, txOutstanding := false })
    refine ⟨by simp [skel_interrupt, hrx, htx],
      fun _ => ?_, fun hc => Bool.noConfusion (htx.symm.trans hc), fun _ => ?_⟩
    · simp only [skel_interrupt, hrx, htx, skel_txdone, uip_poll]
      refine ⟨?_, ?_, ?_⟩ <;> simp [g1, g2, g3]
    · simp only [skel_interrupt, hrx, htx, skel_txdone, uip_poll]
      simp [List.count_cons, g4]
  · refine ⟨by simp [skel_interrupt, hrx, htx], fun _ => ?_, fun _ => ?_,
      fun hc => Bool.noConfusion (htx.symm.trans hc)⟩
    · simp [skel_interrupt, hrx, htx]
    · simp [skel_interrupt, hrx, htx]

/-- C3 witness: concrete status with only the TX-done bit set — the
interrupt trace carries no stack-input call and exactly one poll. -/
theorem interrupt_status_gating_witness :
    Ev.uipInput ∉ (skel_interrupt initState ⟨false, true⟩ [] [0]).2.1 ∧
    (skel_interrupt initState ⟨false, true⟩ [] [0]).2.1.count Ev.uipPollCall = 1 := by
  have h := interrupt_status_gating initState ⟨false, true⟩ [] [0]
  exact ⟨(h.2.1 rfl).2.1, h.2.2.2 rfl⟩

/-- C4: the receive-drain loop terminates: it runs exactly one iteration
per pending frame reported by the adapter, and performs zero iterations
exactly when the adapter reports no pending frames. -/
theorem receive_drain_terminates (s : SkelDriver) (frames : List Frame) :
    (skel_receive s frames).2.2 = frames.length ∧
    ((skel_receive s frames).2.2 = 0 ↔ frames = []) := by
  refine ⟨skel_receive_iters frames s, ?_⟩
  rw [skel_receive_iters frames s]
  exact List.length_eq_zero

/-- C5: an ARP-ethertype frame is handed to `uip_arp_arpin` exactly once;
when the stack leaves a positive reply length, `skel_transmit` is invoked
exactly once with that buffer, and no `uip_arp_out` wrapping occurs. -/
theorem arp_frame_no_arpout (s : SkelDriver) (f : Frame)
    (harp : f.ethtype = UIP_ETHTYPE_ARP) :
    (skel_receive_frame s f).2.count Ev.uipArpArpin = 1 ∧
    Ev.uipArpOut ∉ (skel_receive_frame s f).2 ∧
    ((skel_receive_frame s f).2.filter isSubmit).length =
      (if 0 < f.replyLen then 1 else 0) ∧
    (0 < f.replyLen →
       (skel_receive_frame s f).2.count (Ev.hwSubmitTx f.replyLen) = 1) := by
  have hip : ¬(f.ethtype = UIP_ETHTYPE_IP) := by
    rw [harp]; decide
  by_cases hlen : 0 < f.replyLen
  · refine ⟨?_, ?_, ?_, fun _ => ?_⟩ <;>
      simp [skel_receive_frame, skel_transmit, hip, harp, hlen,
        UIP_ETHTYPE_IP, UIP_ETHTYPE_ARP, List.count_cons, isSubmit]
  · refine ⟨?_, ?_, ?_, fun hc => absurd hc hlen⟩ <;>
      simp [skel_receive_frame, skel_transmit, hip, harp, hlen,
        UIP_ETHTYPE_IP, UIP_ETHTYPE_ARP, List.count_cons, isSubmit]

/-- C5 witness: the spec scenario — an ARP request whose stack reply is 28
bytes is handed to ARP-input once and transmitted exactly once, with no
ARP-out wrapping. -/
theorem arp_frame_no_arpout_witness :
    (skel_receive_frame initState ⟨0x0806, 28⟩).2.count Ev.uipArpArpin = 1 ∧
    Ev.uipArpOut ∉ (skel_receive_frame initState ⟨0x0806, 28⟩).2 ∧
    (skel_receive_frame initState ⟨0x0806, 28⟩).2.count (Ev.hwSubmitTx 28) = 1 := by
  have h := arp_frame_no_arpout initState ⟨0x0806, 28⟩ rfl
  exact ⟨h.1, h.2.1, h.2.2.2 (by decide)⟩

/-- Any chain of poll-timer firings started from an Armed poll timer
leaves the poll timer Armed. -/
lemma pollFirings_armed (dss : List (List Nat)) : ∀ s : SkelDriver,
    s.sk_txpoll = true → (pollFirings s dss).sk_txpoll = true := by
  induction dss with
  | nil => exact fun s h => h
  | cons ds rest ih =>
    exact fun s _ => ih (skel_polltimer s ds).1 (skel_polltimer_state s ds).1

/-- C6: every poll-timer firing first advances the stack's periodic timing
state through `uip_timer` (the first event of its trace) and then
unconditionally re-arms the poll timer (the last event); consequently
after any further N firings the poll timer is still Armed, so it fires
again in period N+1. -/
theorem polltimer_always_rearms (s : SkelDriver) (ds : List Nat)
    (dss : List (List Nat)) :
    (skel_polltimer s ds).1.sk_txpoll = true ∧
    (skel_polltimer s ds).2.head? = some Ev.uipTimerCall ∧
    (skel_polltimer s ds).2.getLast? = some Ev.wdStartTxpoll ∧
    (pollFirings (skel_polltimer s ds).1 dss).sk_txpoll = true := by
  refine ⟨(skel_polltimer_state s ds).1, ?_, ?_,
    pollFirings_armed dss _ (skel_polltimer_state s ds).1⟩
  · simp [skel_polltimer, uip_timer]
  · simp only [skel_polltimer, uip_timer]
    exact List.getLast?_concat _

/-- C7: the TX-timeout handler resets the hardware adapter exactly once
(its first action), then invokes the poll protocol exactly once, and never
arms the TX-timeout watchdog itself — every arming in its trace belongs to
a fresh transmit submission. -/
theorem txtimeout_resets_once_polls_once (s : SkelDriver) (ds : List Nat) :
    (skel_txtimeout s ds).2.count Ev.hwReset = 1 ∧
    (skel_txtimeout s ds).2.count Ev.uipPollCall = 1 ∧
    (skel_txtimeout s ds).2.head? = some Ev.hwReset ∧
    (skel_txtimeout s ds).2.count Ev.wdStartTxtimeout =
      ((skel_txtimeout s ds).2.filter isSubmit).length := by
  obtain ⟨g1, g2, g3, g4, g5, g6, g7⟩ :=
    uip_poll_go_trace ds ({ s with txOutstanding := false })
  simp only [skel_txtimeout, uip_poll]
  refine ⟨?_, ?_, rfl, ?_⟩ <;> simp [List.count_cons, isSubmit, g4, g5, g6]

/-- C8: `skel_txavail` with the link down performs no poll and no hardware
call and leaves the device state unchanged; with the link up it polls
exactly once; in both cases the body runs between `irqsave` and
`irqrestore` and the call returns OK. -/
theorem txavail_gated_by_link (s : SkelDriver) (ds : List Nat) :
    (skel_txavail s ds).2.2 = OK ∧
    (s.sk_bifup = false →
       (skel_txavail s ds).1 = s ∧
       (skel_txavail s ds).2.1 = [Ev.irqSave, Ev.irqRestore]) ∧
    (s.sk_bifup = true →
       (skel_txavail s ds).2.1.count Ev.uipPollCall = 1 ∧
       (skel_txavail s ds).2.1.head? = some Ev.irqSave ∧
       (skel_txavail s ds).2.1.getLast? = some Ev.irqRestore) := by
  rcases Bool.eq_false_or_eq_true s.sk_bifup with hb | hb
  · obtain ⟨g1, g2, g3, g4, -⟩ := uip_poll_go_trace ds s
    simp only [skel_txavail]
    rw [if_pos hb]
    refine ⟨rfl, fun hc => Bool.noConfusion (hb.symm.trans hc),
      fun _ => ⟨?_, ?_, ?_⟩⟩
    · simp only [uip_poll]
      simp [List.count_append, List.count_cons, g4]
    · simp
    · exact List.getLast?_concat _
  · have hbne : ¬(s.sk_bifup = true) := by rw [hb]; exact Bool.false_ne_true
    simp only [skel_txavail]
    rw [if_neg hbne]
    exact ⟨rfl, fun _ => ⟨rfl, rfl⟩, fun hc => absurd hc hbne⟩

/-- C8 witness: concrete link-down and link-up calls. -/
theorem txavail_gated_by_link_witness :
    ((skel_txavail initState [0]).1 = initState ∧
       (skel_txavail initState [0]).2.1 = [Ev.irqSave, Ev.irqRestore]) ∧
    (skel_txavail (skel_ifup initState).1 [0]).2.1.count Ev.uipPollCall = 1 := by
  have h1 := txavail_gated_by_link initState [0]
  have h2 := txavail_gated_by_link (skel_ifup initState).1 [0]
  exact ⟨h1.2.1 rfl, (h2.2.2 rfl).1⟩

/-- C9: `skel_ifdown` is idempotent: a second call leaves the same state
(`irq disabled`, both watchdogs Idle, link down) and the same trace as the
first, with no hardware reset side effect; cancelling the already-Idle
watchdogs is a no-op, and the call is safe from any state, including one
never brought up. -/
theorem ifdown_idempotent (s : SkelDriver) :
    (skel_ifdown (skel_ifdown s).1).1 = (skel_ifdown s).1 ∧
    (skel_ifdown (skel_ifdown s).1).2.1 = (skel_ifdown s).2.1 ∧
    Ev.hwReset ∉ (skel_ifdown (skel_ifdown s).1).2.1 ∧
    (skel_ifdown s).1.sk_bifup = false ∧
    (skel_ifdown s).1.sk_txpoll = false ∧
    (skel_ifdown s).1.sk_txtimeout = false ∧
    (skel_ifdown s).1.irqEnabled = false ∧
    (skel_ifdown s).2.2 = OK := by
  refine ⟨rfl, rfl, ?_, rfl, rfl, rfl, rfl, rfl⟩
  simp [skel_ifdown]

/-- C10: the poll callback `skel_uiptxpoll` returns 0 on every input
state, so it never signals device-full to the stack's iteration: a poll
pass offers every one of the stack's connections, one `pollConn` event per
element of `ds`, even right after a packet was handed to `skel_transmit`. -/
theorem uiptxpoll_never_stops_poll (s : SkelDriver) (ds : List Nat) :
    (skel_uiptxpoll s).2.2 = 0 ∧
    ((uip_poll s ds).2.filter isPollConn).length = ds.length := by
  refine ⟨skel_uiptxpoll_ret s, ?_⟩
  obtain ⟨-, -, -, -, -, -, g7⟩ := uip_poll_go_trace ds s
  simp [uip_poll, isPollConn, g7]

end Skeleton
